import Mathlib

/-!
Shallow embedding of `src/torrent/client.py` (P2Pslyr), the per-peer
single-piece acquisition engine of a BitTorrent swarm-evidence collector.

Modelling conventions:
* IP addresses are `IpAddr`: a family tag (v4/v6) together with the numeric
  value of the address (`< 2^32` resp. `< 2^128` for valid addresses).
  Textual literals of the Python code are identified with their parsed
  numeric values; parsing by the external `ipaddress` library is part of
  the environment, so functions that receive possibly-invalid text take an
  `Option IpAddr` (with `none` for a `ValueError`).
* The libtorrent `ip_filter` is a list of range rules in installation
  order; `add_rule(lo, hi, flag)` appends a rule, and the effective access
  of an address is decided by the last rule covering it (libtorrent
  semantics: a later `add_rule` overrides earlier ones on the overlap),
  with the default access `0` (allowed) when no rule covers it.
* File-system state is passed explicitly: `peer.csv` is the list of its
  parsed rows, a log file is the list of its lines, and the set of
  existing paths is a list of strings.
* External primitives (hashlib's SHA-1, the binary matcher, WHOIS,
  timestamps, the random piece index, the alert stream popped from the
  session) are parameters of the embedded functions.
-/

namespace P2Pslyr

/-- An IP address: family (v4 or v6) plus numeric value. -/
inductive IpAddr where
  | v4 (a : Nat)
  | v6 (a : Nat)
deriving DecidableEq, Repr

/-- Family tag of an address: `false` for v4, `true` for v6. -/
def IpAddr.fam : IpAddr → Bool
  | .v4 _ => false
  | .v6 _ => true

/-- Numeric value of an address. -/
def IpAddr.val : IpAddr → Nat
  | .v4 a => a
  | .v6 a => a

/-- An address is valid when its value fits the family's width. -/
def IpAddr.valid : IpAddr → Prop
  | .v4 a => a < 2 ^ 32
  | .v6 a => a < 2 ^ 128

instance : DecidablePred IpAddr.valid := by
  intro a; cases a <;> simp [IpAddr.valid] <;> infer_instance

/-- One libtorrent `ip_filter` rule: a family-homogeneous numeric range
together with its access flag (`blocked = true` models flag `1`). -/
structure FilterRule where
  fam : Bool
  lo : Nat
  hi : Nat
  blocked : Bool
deriving DecidableEq, Repr

/-- Whether a rule's range covers an address. -/
def ruleMatches (r : FilterRule) (a : IpAddr) : Bool :=
  r.fam == a.fam && decide (r.lo ≤ a.val) && decide (a.val ≤ r.hi)

/-- Effective access of an address under a rule list (true = blocked):
the last matching rule wins, default is allowed. -/
def filterAccess (rules : List FilterRule) (a : IpAddr) : Bool :=
  rules.foldl (fun acc r => if ruleMatches r a then r.blocked else acc) false

/-- Rule `add_rule("0.0.0.0", "255.255.255.255", 1)` of `setup_session`. -/
def denyAllV4 : FilterRule := ⟨false, 0, 2 ^ 32 - 1, true⟩

/-- Rule `add_rule("::", "ffff:…:ffff", 1)` of `setup_session`. -/
def denyAllV6 : FilterRule := ⟨true, 0, 2 ^ 128 - 1, true⟩

/-- Rule `add_rule(ip, ip, 0)`: allow a single address. -/
def allowSingle (a : IpAddr) : FilterRule := ⟨a.fam, a.val, a.val, false⟩

/-- Tracker resolution loop of `setup_session`: each tracker either
resolves to a list of addresses or raises `socket.gaierror` (`none`),
in which case it is skipped. -/
def resolvedTrackerIps (trackers : List (Option (List IpAddr))) : List IpAddr :=
  trackers.foldl
    (fun acc t =>
      match t with
      | some ips => acc ++ ips
      | none => acc)
    []

/-- The filter built by `Client.setup_session` (client.py lines 189–207):
deny the whole v4 and v6 spaces, then allow every resolved tracker
address. -/
def setupSessionFilter (trackers : List (Option (List IpAddr))) : List FilterRule :=
  [denyAllV4, denyAllV6] ++ (resolvedTrackerIps trackers).map allowSingle

/-- The filter mutation of `Client.download_piece` (client.py line 242):
`ip_filter.add_rule(peer[0], peer[0], 0)` appends one allow rule for the
target peer.  The same filter object is reused across probes, so the
rules accumulate. -/
def addPeerRule (f : List FilterRule) (peerAddr : IpAddr) : List FilterRule :=
  f ++ [allowSingle peerAddr]

/-- Filter state after a sequence of `download_piece` probes sharing the
session and filter produced by `setup_session`. -/
def sessionFilterAfterProbes (trackers : List (Option (List IpAddr)))
    (peers : List IpAddr) : List FilterRule :=
  peers.foldl addPeerRule (setupSessionFilter trackers)

lemma ruleMatches_allowSingle (x a : IpAddr) :
    ruleMatches (allowSingle x) a = true ↔ x = a := by
  cases x <;> cases a <;>
    simp [ruleMatches, allowSingle, IpAddr.fam, IpAddr.val] <;> omega

lemma foldl_allowSingle (xs : List IpAddr) (a : IpAddr) (acc : Bool) :
    (xs.map allowSingle).foldl
      (fun acc r => if ruleMatches r a then r.blocked else acc) acc
      = if a ∈ xs then false else acc := by
  induction xs generalizing acc with
  | nil => simp
  | cons x xs ih =>
    simp only [List.map_cons, List.foldl_cons]
    rw [ih]
    have hcond : (ruleMatches (allowSingle x) a = true) = (x = a) :=
      propext (ruleMatches_allowSingle x a)
    simp only [hcond, List.mem_cons]
    by_cases hxa : x = a
    · subst hxa
      simp [allowSingle]
    · have hax : ¬a = x := fun h => hxa h.symm
      simp [hxa, hax]

lemma filterAccess_deny_then_allow (xs : List IpAddr) (a : IpAddr)
    (ha : a.valid) :
    filterAccess ([denyAllV4, denyAllV6] ++ xs.map allowSingle) a = false
      ↔ a ∈ xs := by
  have hbase :
      ([denyAllV4, denyAllV6] : List FilterRule).foldl
        (fun acc r => if ruleMatches r a then r.blocked else acc) false = true := by
    cases a with
    | v4 n =>
      have h : n < 2 ^ 32 := ha
      have h4 : ruleMatches denyAllV4 (.v4 n) = true := by
        simp [ruleMatches, denyAllV4, IpAddr.fam, IpAddr.val]; omega
      have h6 : ruleMatches denyAllV6 (.v4 n) = false := by
        simp [ruleMatches, denyAllV6, IpAddr.fam]
      simp only [List.foldl_cons, List.foldl_nil]
      rw [h4, h6]
      simp [denyAllV4]
    | v6 n =>
      have h : n < 2 ^ 128 := ha
      have h4 : ruleMatches denyAllV4 (.v6 n) = false := by
        simp [ruleMatches, denyAllV4, IpAddr.fam]
      have h6 : ruleMatches denyAllV6 (.v6 n) = true := by
        simp [ruleMatches, denyAllV6, IpAddr.fam, IpAddr.val]; omega
      simp only [List.foldl_cons, List.foldl_nil]
      rw [h4, h6]
      simp [denyAllV6]
  unfold filterAccess
  rw [List.foldl_append, hbase, foldl_allowSingle]
  by_cases hm : a ∈ xs <;> simp [hm]

lemma foldl_addPeerRule (peers : List IpAddr) (f : List FilterRule) :
    peers.foldl addPeerRule f = f ++ peers.map allowSingle := by
  induction peers generalizing f with
  | nil => simp
  | cons p ps ih => simp [addPeerRule, ih]

lemma sessionFilterAfterProbes_eq (trackers : List (Option (List IpAddr)))
    (peers : List IpAddr) :
    sessionFilterAfterProbes trackers peers
      = [denyAllV4, denyAllV6]
        ++ (resolvedTrackerIps trackers ++ peers).map allowSingle := by
  unfold sessionFilterAfterProbes setupSessionFilter
  rw [foldl_addPeerRule]
  simp [List.map_append]

/-- C1 (amended): after any sequence of `download_piece` probes sharing
the session and filter of `setup_session`, the installed filter allows a
valid address iff it is a resolved tracker address or the address of one
of the peers probed so far — so for the first probe the allowed set is
exactly `{trackers} ∪ {the one target peer}`, but later probes also keep
all earlier target peers allowed. -/
theorem C1_filter_allows_trackers_and_probed_peers
    (trackers : List (Option (List IpAddr))) (probedPeers : List IpAddr)
    (a : IpAddr) (ha : a.valid) :
    filterAccess (sessionFilterAfterProbes trackers probedPeers) a = false
      ↔ a ∈ resolvedTrackerIps trackers ∨ a ∈ probedPeers := by
  rw [sessionFilterAfterProbes_eq, filterAccess_deny_then_allow _ _ ha]
  exact List.mem_append

/-- Witness for C1 at a concrete input: with one tracker address `5` and
probed peer `1`, the peer's address is allowed. -/
theorem C1_filter_allows_trackers_and_probed_peers_witness :
    filterAccess
      (sessionFilterAfterProbes [some [IpAddr.v4 5]] [IpAddr.v4 1])
      (IpAddr.v4 1) = false :=
  (C1_filter_allows_trackers_and_probed_peers [some [IpAddr.v4 5]]
    [IpAddr.v4 1] (IpAddr.v4 1) (by decide)).mpr (Or.inr (by decide))

/-- Counterexample to C1 as stated: in a session with no resolvable
trackers, after a first probe of peer `1` and a second probe of peer `2`,
at the moment the second probe requests `read_piece` the filter still
allows address `1`, which is neither a tracker address nor the second
probe's target peer. -/
theorem C1_filter_counterexample :
    filterAccess (sessionFilterAfterProbes [] [IpAddr.v4 1, IpAddr.v4 2])
        (IpAddr.v4 1) = false
      ∧ IpAddr.v4 1 ∉ resolvedTrackerIps []
      ∧ IpAddr.v4 1 ≠ IpAddr.v4 2 := by
  refine ⟨?_, by simp [resolvedTrackerIps], by decide⟩
  decide

/-- Data of `lt.torrent_info` consumed by `download_piece`. -/
structure TorrentInfo where
  numPieces : Nat
  hashForPiece : Nat → List Nat
  infoHash : String
  name : String

/-- A peer `(address, port)`, the address a textual v4/v6 literal. -/
abbrev Peer := String × Nat

/-- Alerts popped from the session.  `readPiece` models
`lt.read_piece_alert`, carrying the alert's piece index and its buffer
(`none` models a Python `None` buffer). -/
inductive Alert where
  | readPiece (idx : Nat) (buffer : Option (List Nat))
  | other
deriving DecidableEq, Repr

/-- Result of `Binarymatcher.instant_binary_match` as discriminated by
`download_piece`: Python `False`, a number (`int`/`float`), or anything
else. -/
inductive MatchResult where
  | isFalse
  | isNum
  | isOther
deriving DecidableEq, Repr

/-- Inner `for a in alerts` loop of the alert drain (client.py lines
265–269): the buffer of the first `read_piece_alert` in the popped
batch.  The code never inspects the alert's piece index. -/
def firstReadPiece : List Alert → Option (Option (List Nat))
  | [] => none
  | .readPiece _ buf :: _ => some buf
  | .other :: rest => firstReadPiece rest

/-- Outer `for _ in range(10)` drain loop (client.py lines 263–276).
`batches` is the environment's stream of `session.pop_alerts()` results,
one per iteration; the result is the captured buffer (`none` = the loop
ran out of iterations and the code prints a message and returns) paired
with the number of 1-second sleeps performed (one per iteration that
yielded no `read_piece_alert`). -/
def drainAlerts (batches : List (List Alert)) : Nat → Option (Option (List Nat)) × Nat
  | 0 => (none, 0)
  | fuel + 1 =>
    match firstReadPiece (batches.headD []) with
    | some buf => (some buf, 0)
    | none =>
      let r := drainAlerts batches.tail fuel
      (r.1, r.2 + 1)

/-- Models `_save_peer` (client.py lines 456–479): read the rows already
in `peer.csv` and append the peer only if it is not among them. -/
def save_peer (peer : Peer) (existingPeers : List Peer) : List Peer :=
  if peer ∈ existingPeers then existingPeers else existingPeers ++ [peer]

/-- Models `_write_piece_to_file` (client.py lines 389–404): opening the
path with mode "wb" creates the file (empty), then `f.write(piece)`
writes the bytes — unless `piece` is Python `None`, in which case
`f.write` raises `TypeError` after the empty file was already created.
Result: (contents of the created file, whether the call raised). -/
def write_piece_to_file : Option (List Nat) → List Nat × Bool
  | none => ([], true)
  | some bs => (bs, false)

/-- Provenance header block written by `_write_peer_log` on file
creation (client.py lines 440–449).  The WHOIS organisation string is an
environment parameter (result of `_query_jpnic_whois(peer[0])`). -/
def headerLines (info : TorrentInfo) (peer : Peer) (whois : String)
    (completedTimestamp version : String) : List String :=
  [ "IPアドレス：" ++ peer.1,
    "ポート番号：" ++ toString peer.2,
    "プロバイダ：" ++ whois,
    "ファイル名：" ++ info.name,
    "ファイルハッシュ: " ++ info.infoHash,
    "証拠収集開始時刻: " ++ completedTimestamp,
    "P2Pクローラ " ++ version,
    "---" ]

/-- Record line appended by every `_write_peer_log` call (client.py
lines 451–453). -/
def recordLine (pieceIndex : Nat) (logErrorMessage completedTimestamp version : String) : String :=
  "piece" ++ toString pieceIndex ++ logErrorMessage ++ " 完了時刻: "
    ++ completedTimestamp ++ " " ++ version

/-- Models `_write_peer_log` (client.py lines 407–453) acting on the log
file's contents: `none` = the file does not exist yet (mode "w", header
then record line), `some lines` = it exists (mode "a", record line
only). -/
def write_peer_log (info : TorrentInfo) (peer : Peer) (pieceIndex : Nat)
    (file : Option (List String)) (completedTimestamp : String)
    (logErrorMessage : String) (version : String) (whois : String) : List String :=
  match file with
  | none =>
      headerLines info peer whois completedTimestamp version
        ++ [recordLine pieceIndex logErrorMessage completedTimestamp version]
  | some lines =>
      lines ++ [recordLine pieceIndex logErrorMessage completedTimestamp version]

/-- Observable outcome of one `download_piece` probe. -/
structure ProbeOutput where
  emitted : Bool
  errorPrefix : String
  logErrorMessage : String
  captured : Option (Option (List Nat))
  csv : List Peer
  binFileWritten : Option (List Nat)
  crashed : Bool
  logAfter : Option (List String)
  sleeps : Nat

/-- Models `Client.download_piece` (client.py lines 210–343) after the
filter/handle setup: drain the alert queue for the piece buffer, build
the record, and write the evidence files.  Environment parameters:
`sha1` is hashlib's SHA-1 digest, `matcher` the binary matcher, `whois`
the WHOIS organisation string, `pieceIndex` the randomly chosen index,
`batches` the alert stream, `csv0` the prior `peer.csv` rows, `logFile0`
the prior per-peer log contents (`none` = absent). -/
def download_piece (sha1 : List Nat → List Nat)
    (matcher : List Nat → Nat → MatchResult) (whois : String)
    (pieceDownload : Bool) (info : TorrentInfo) (pieceIndex : Nat)
    (batches : List (List Alert)) (csv0 : List Peer)
    (logFile0 : Option (List String)) (peer : Peer)
    (completedTimestamp version : String) : ProbeOutput :=
  let dr := drainAlerts batches 10
  match dr.1 with
  | none =>
      { emitted := false, errorPrefix := "", logErrorMessage := "",
        captured := none, csv := csv0, binFileWritten := none,
        crashed := false, logAfter := none, sleeps := dr.2 }
  | some a =>
      let pl : String × String :=
        match a with
        | none => ("BLANK_", " エラー：ピースダウンロード失敗 ")
        | some bs =>
          if bs.length = 0 then ("BLANK_", " エラー：ピースダウンロード失敗 ")
          else if sha1 bs ≠ info.hashForPiece pieceIndex then
            ("FALSE_", " エラー：ピースハッシュ不一致 ")
          else
            match matcher bs pieceIndex with
            | .isFalse => ("INVALID_", " エラー：バイナリ不一致 ")
            | _ => ("", "")
      let csv1 := save_peer peer csv0
      let wr : Option (List Nat × Bool) :=
        if pieceDownload then some (write_piece_to_file a) else none
      let crashed : Bool := match wr with | some w => w.2 | none => false
      { emitted := true, errorPrefix := pl.1, logErrorMessage := pl.2,
        captured := some a, csv := csv1,
        binFileWritten := wr.map Prod.fst,
        crashed := crashed,
        logAfter :=
          if crashed then none
          else some (write_peer_log info peer pieceIndex logFile0
            completedTimestamp pl.2 version whois),
        sleeps := dr.2 }

lemma drainAlerts_spec (fuel : Nat) (batches : List (List Alert)) :
    (drainAlerts batches fuel).1 = (batches.take fuel).findSome? firstReadPiece
    ∧ ((drainAlerts batches fuel).1 = none → (drainAlerts batches fuel).2 = fuel)
    ∧ (∀ buf, (drainAlerts batches fuel).1 = some buf →
        (drainAlerts batches fuel).2 < fuel
        ∧ (∀ b ∈ batches.take (drainAlerts batches fuel).2, firstReadPiece b = none)
        ∧ firstReadPiece (batches.getD (drainAlerts batches fuel).2 []) = some buf) := by
  induction fuel generalizing batches with
  | zero => simp [drainAlerts]
  | succ fuel ih =>
    cases batches with
    | nil =>
      have heq : drainAlerts ([] : List (List Alert)) (fuel + 1)
          = ((drainAlerts [] fuel).1, (drainAlerts [] fuel).2 + 1) := rfl
      obtain ⟨ih1, ih2, _⟩ := ih ([] : List (List Alert))
      rw [heq]
      refine ⟨?_, ?_, ?_⟩
      · simpa using ih1
      · intro hnone
        simp only at hnone ⊢
        rw [ih2 hnone]
      · intro buf hsome
        simp only at hsome
        rw [ih1] at hsome
        simp at hsome
    | cons b bs =>
      cases h : firstReadPiece b with
      | some buf =>
        have heq : drainAlerts (b :: bs) (fuel + 1) = (some buf, 0) := by
          simp only [drainAlerts, List.headD_cons, h]
        rw [heq]
        refine ⟨?_, ?_, ?_⟩
        · simp [List.take_succ_cons, List.findSome?_cons, h]
        · intro hnone; simp at hnone
        · intro buf2 hsome
          simp only at hsome
          obtain rfl : buf = buf2 := by
            cases hsome; rfl
          refine ⟨Nat.succ_pos _, ?_, ?_⟩
          · intro x hx; simp at hx
          · simpa using h
      | none =>
        have heq : drainAlerts (b :: bs) (fuel + 1)
            = ((drainAlerts bs fuel).1, (drainAlerts bs fuel).2 + 1) := by
          simp only [drainAlerts, List.headD_cons, h, List.tail_cons]
        obtain ⟨ih1, ih2, ih3⟩ := ih bs
        rw [heq]
        refine ⟨?_, ?_, ?_⟩
        · simpa [List.take_succ_cons, List.findSome?_cons, h] using ih1
        · intro hnone
          simp only at hnone ⊢
          rw [ih2 hnone]
        · intro buf hsome
          simp only at hsome ⊢
          obtain ⟨hlt, hall, hget⟩ := ih3 buf hsome
          refine ⟨Nat.succ_lt_succ hlt, ?_, ?_⟩
          · intro x hx
            rw [List.take_succ_cons] at hx
            rcases List.mem_cons.mp hx with rfl | hx2
            · exact h
            · exact hall x hx2
          · simpa [List.getD_cons_succ] using hget

/-- C3 (amended): in the alert-drain loop of `download_piece`, the byte
buffer is captured from the first piece-read alert found in the drained
batches, regardless of that alert's piece index (the code never compares
it with the chosen `piece_index`); the loop performs at most 10
iterations, sleeping 1 s after each iteration that yields no piece-read
alert (so exactly 10 sleeps on timeout, and one sleep per alertless
iteration before a capture). -/
theorem C3_drain_loop_spec (batches : List (List Alert)) :
    (drainAlerts batches 10).1 = (batches.take 10).findSome? firstReadPiece
    ∧ (drainAlerts batches 10).2 ≤ 10
    ∧ ((drainAlerts batches 10).1 = none → (drainAlerts batches 10).2 = 10)
    ∧ (∀ buf, (drainAlerts batches 10).1 = some buf →
        (drainAlerts batches 10).2 < 10
        ∧ (∀ b ∈ batches.take (drainAlerts batches 10).2, firstReadPiece b = none)
        ∧ firstReadPiece (batches.getD (drainAlerts batches 10).2 []) = some buf)
    ∧ (∀ i buf rest, firstReadPiece (Alert.readPiece i buf :: rest) = some buf) := by
  obtain ⟨h1, h2, h3⟩ := drainAlerts_spec 10 batches
  refine ⟨h1, ?_, h2, h3, fun i buf rest => rfl⟩
  rcases hc : (drainAlerts batches 10).1 with _ | buf
  · exact le_of_eq (h2 hc)
  · exact le_of_lt (h3 buf hc).1

/-- Witness for C3 at a concrete input: one alertless batch then a batch
with a piece-read alert: the loop captures after fewer than 10
iterations. -/
theorem C3_drain_loop_spec_witness :
    (drainAlerts [[Alert.other], [Alert.readPiece 5 (some [7])]] 10).2 < 10 :=
  ((C3_drain_loop_spec [[Alert.other], [Alert.readPiece 5 (some [7])]]).2.2.2.1
    (some [7]) rfl).1

/-- Counterexample to C3 as stated: with chosen piece index 0, the drain
loop of `download_piece` captures the buffer of a piece-read alert whose
piece index is 5 — an alert for another piece index is accepted. -/
theorem C3_drain_loop_counterexample :
    (download_piece (fun _ => []) (fun _ _ => .isNum) "" false
        ⟨1, fun _ => [], "", ""⟩ 0 [[Alert.readPiece 5 (some [1, 2])]]
        [] none ("192.0.2.1", 6881) "ts" "v").captured = some (some [1, 2])
    ∧ (5 : Nat) ≠ 0 :=
  ⟨rfl, by decide⟩

/-- C2 (amended): a probe in which no piece-read alert arrives within
the 10 drain iterations produces NO evidence record: `download_piece`
returns early, leaving `peer.csv` untouched and writing neither a log
line nor a piece file.  The `BLANK` record with error text
`ピースダウンロード失敗` is produced when an alert does arrive but its
buffer is `None` or empty; in that case the `peer.csv` row is written
and, unless the piece-file write raises (`None` buffer with the
piece_download setting on), the per-peer log line is written as well. -/
theorem C2_timeout_emits_nothing (sha1 : List Nat → List Nat)
    (matcher : List Nat → Nat → MatchResult) (whois : String)
    (pieceDownload : Bool) (info : TorrentInfo) (pieceIndex : Nat)
    (batches : List (List Alert)) (csv0 : List Peer)
    (logFile0 : Option (List String)) (peer : Peer)
    (completedTimestamp version : String) :
    ((drainAlerts batches 10).1 = none →
      (download_piece sha1 matcher whois pieceDownload info pieceIndex
          batches csv0 logFile0 peer completedTimestamp version).emitted = false
      ∧ (download_piece sha1 matcher whois pieceDownload info pieceIndex
          batches csv0 logFile0 peer completedTimestamp version).csv = csv0
      ∧ (download_piece sha1 matcher whois pieceDownload info pieceIndex
          batches csv0 logFile0 peer completedTimestamp version).logAfter = none
      ∧ (download_piece sha1 matcher whois pieceDownload info pieceIndex
          batches csv0 logFile0 peer completedTimestamp version).binFileWritten = none)
    ∧ (∀ a, (drainAlerts batches 10).1 = some a → (a = none ∨ a = some []) →
      (download_piece sha1 matcher whois pieceDownload info pieceIndex
          batches csv0 logFile0 peer completedTimestamp version).emitted = true
      ∧ (download_piece sha1 matcher whois pieceDownload info pieceIndex
          batches csv0 logFile0 peer completedTimestamp version).errorPrefix = "BLANK_"
      ∧ (download_piece sha1 matcher whois pieceDownload info pieceIndex
          batches csv0 logFile0 peer completedTimestamp version).logErrorMessage
          = " エラー：ピースダウンロード失敗 "
      ∧ (download_piece sha1 matcher whois pieceDownload info pieceIndex
          batches csv0 logFile0 peer completedTimestamp version).csv
          = save_peer peer csv0
      ∧ ((download_piece sha1 matcher whois pieceDownload info pieceIndex
            batches csv0 logFile0 peer completedTimestamp version).crashed = false →
          (download_piece sha1 matcher whois pieceDownload info pieceIndex
            batches csv0 logFile0 peer completedTimestamp version).logAfter
          = some (write_peer_log info peer pieceIndex logFile0 completedTimestamp
              " エラー：ピースダウンロード失敗 " version whois))) := by
  constructor
  · intro h
    simp only [download_piece]
    rw [h]
    exact ⟨rfl, rfl, rfl, rfl⟩
  · intro a h ha
    simp only [download_piece]
    rw [h]
    rcases ha with rfl | rfl
    · refine ⟨rfl, rfl, rfl, rfl, ?_⟩
      intro hc
      simp [hc]
      exact hc
    · refine ⟨rfl, rfl, rfl, rfl, ?_⟩
      intro hc
      simp [hc]
      exact hc

/-- Witness for C2 at a concrete input: an alert with an empty buffer
yields a `BLANK_` record. -/
theorem C2_timeout_emits_nothing_witness :
    (download_piece (fun _ => []) (fun _ _ => .isNum) "w" false
        ⟨1, fun _ => [], "ih", "nm"⟩ 0 [[Alert.readPiece 0 (some [])]]
        [] none ("192.0.2.1", 6881) "ts" "v").errorPrefix = "BLANK_" :=
  ((C2_timeout_emits_nothing (fun _ => []) (fun _ _ => .isNum) "w" false
      ⟨1, fun _ => [], "ih", "nm"⟩ 0 [[Alert.readPiece 0 (some [])]]
      [] none ("192.0.2.1", 6881) "ts" "v").2 (some []) rfl (Or.inr rfl)).2.1

/-- Counterexample to C2 as stated: when no piece-read alert arrives in
the 10 drain iterations (here: an empty alert stream), `download_piece`
returns without emitting any evidence record — no `BLANK` record, no
`peer.csv` row and no log line are written. -/
theorem C2_timeout_counterexample :
    (download_piece (fun _ => []) (fun _ _ => .isNum) "w" true
        ⟨1, fun _ => [], "ih", "nm"⟩ 0 [] [] none ("192.0.2.1", 6881)
        "ts" "v").emitted = false
    ∧ (download_piece (fun _ => []) (fun _ _ => .isNum) "w" true
        ⟨1, fun _ => [], "ih", "nm"⟩ 0 [] [] none ("192.0.2.1", 6881)
        "ts" "v").csv = []
    ∧ (download_piece (fun _ => []) (fun _ _ => .isNum) "w" true
        ⟨1, fun _ => [], "ih", "nm"⟩ 0 [] [] none ("192.0.2.1", 6881)
        "ts" "v").logAfter = none :=
  ⟨rfl, rfl, rfl⟩

/-- C4: for a piece record built from non-empty received bytes: on a
SHA-1 mismatch with `hash_for_piece` the record is `FALSE_` with the
hash-mismatch error text and the binary matcher is never consulted (the
result is the same for every matcher); on hash match and a binary-match
`False` the record is `INVALID_` with the binary-mismatch text; on hash
match and a numeric match result the record has empty error prefix; and
every emitted record with empty error prefix has matching SHA-1. -/
theorem C4_hash_then_binary_check (sha1 : List Nat → List Nat)
    (matcher : List Nat → Nat → MatchResult) (whois : String)
    (pieceDownload : Bool) (info : TorrentInfo) (pieceIndex : Nat)
    (batches : List (List Alert)) (csv0 : List Peer)
    (logFile0 : Option (List String)) (peer : Peer)
    (completedTimestamp version : String) (bs : List Nat)
    (hcap : (drainAlerts batches 10).1 = some (some bs)) (hne : bs ≠ []) :
    (sha1 bs ≠ info.hashForPiece pieceIndex →
      (download_piece sha1 matcher whois pieceDownload info pieceIndex
          batches csv0 logFile0 peer completedTimestamp version).errorPrefix = "FALSE_"
      ∧ (download_piece sha1 matcher whois pieceDownload info pieceIndex
          batches csv0 logFile0 peer completedTimestamp version).logErrorMessage
          = " エラー：ピースハッシュ不一致 "
      ∧ ∀ matcher2, download_piece sha1 matcher2 whois pieceDownload info pieceIndex
          batches csv0 logFile0 peer completedTimestamp version
          = download_piece sha1 matcher whois pieceDownload info pieceIndex
              batches csv0 logFile0 peer completedTimestamp version)
    ∧ (sha1 bs = info.hashForPiece pieceIndex → matcher bs pieceIndex = .isFalse →
      (download_piece sha1 matcher whois pieceDownload info pieceIndex
          batches csv0 logFile0 peer completedTimestamp version).errorPrefix = "INVALID_"
      ∧ (download_piece sha1 matcher whois pieceDownload info pieceIndex
          batches csv0 logFile0 peer completedTimestamp version).logErrorMessage
          = " エラー：バイナリ不一致 ")
    ∧ (sha1 bs = info.hashForPiece pieceIndex → matcher bs pieceIndex = .isNum →
      (download_piece sha1 matcher whois pieceDownload info pieceIndex
          batches csv0 logFile0 peer completedTimestamp version).errorPrefix = ""
      ∧ (download_piece sha1 matcher whois pieceDownload info pieceIndex
          batches csv0 logFile0 peer completedTimestamp version).logErrorMessage = "")
    ∧ ((download_piece sha1 matcher whois pieceDownload info pieceIndex
          batches csv0 logFile0 peer completedTimestamp version).errorPrefix = "" →
        sha1 bs = info.hashForPiece pieceIndex) := by
  have hbs : ¬bs.length = 0 := by simpa using hne
  refine ⟨?_, ?_, ?_, ?_⟩
  · intro hmm
    refine ⟨?_, ?_, ?_⟩
    · simp only [download_piece]; rw [hcap]; simp [hbs, hmm]
    · simp only [download_piece]; rw [hcap]; simp [hbs, hmm]
    · intro matcher2
      simp only [download_piece]; rw [hcap]; simp [hbs, hmm]
  · intro heq hm
    constructor
    · simp only [download_piece]; rw [hcap]; simp [hbs, heq, hm]
    · simp only [download_piece]; rw [hcap]; simp [hbs, heq, hm]
  · intro heq hm
    constructor
    · simp only [download_piece]; rw [hcap]; simp [hbs, heq, hm]
    · simp only [download_piece]; rw [hcap]; simp [hbs, heq, hm]
  · intro hpre
    by_cases hd : sha1 bs = info.hashForPiece pieceIndex
    · exact hd
    · exfalso
      simp only [download_piece] at hpre
      rw [hcap] at hpre
      simp [hbs, hd] at hpre

/-- Witness for C4 at concrete inputs: a hash mismatch yields `FALSE_`,
and a hash match with binary mismatch yields `INVALID_`. -/
theorem C4_hash_then_binary_check_witness :
    (download_piece (fun _ => [0]) (fun _ _ => .isNum) "w" false
        ⟨1, fun _ => [1], "ih", "nm"⟩ 0 [[Alert.readPiece 0 (some [9])]]
        [] none ("p", 1) "ts" "v").errorPrefix = "FALSE_"
    ∧ (download_piece (fun _ => [1]) (fun _ _ => .isFalse) "w" false
        ⟨1, fun _ => [1], "ih", "nm"⟩ 0 [[Alert.readPiece 0 (some [9])]]
        [] none ("p", 1) "ts" "v").errorPrefix = "INVALID_" :=
  ⟨((C4_hash_then_binary_check (fun _ => [0]) (fun _ _ => .isNum) "w" false
      ⟨1, fun _ => [1], "ih", "nm"⟩ 0 [[Alert.readPiece 0 (some [9])]]
      [] none ("p", 1) "ts" "v" [9] rfl (by decide)).1 (by decide)).1,
   ((C4_hash_then_binary_check (fun _ => [1]) (fun _ _ => .isFalse) "w" false
      ⟨1, fun _ => [1], "ih", "nm"⟩ 0 [[Alert.readPiece 0 (some [9])]]
      [] none ("p", 1) "ts" "v" [9] rfl (by decide)).2.1 rfl rfl).1⟩

/-- C5 (amended): for a probe whose record is `BLANK` (captured buffer
absent or zero-length), no `.bin` file is written when the
piece_download setting is false; but when the setting is true a
zero-length `.bin` file IS created — the empty capture is not withheld
from disk. -/
theorem C5_blank_bin_file (sha1 : List Nat → List Nat)
    (matcher : List Nat → Nat → MatchResult) (whois : String)
    (pieceDownload : Bool) (info : TorrentInfo) (pieceIndex : Nat)
    (batches : List (List Alert)) (csv0 : List Peer)
    (logFile0 : Option (List String)) (peer : Peer)
    (completedTimestamp version : String)
    (hpre : (download_piece sha1 matcher whois pieceDownload info pieceIndex
        batches csv0 logFile0 peer completedTimestamp version).errorPrefix = "BLANK_") :
    (pieceDownload = false →
      (download_piece sha1 matcher whois pieceDownload info pieceIndex
          batches csv0 logFile0 peer completedTimestamp version).binFileWritten = none)
    ∧ (pieceDownload = true →
      (download_piece sha1 matcher whois pieceDownload info pieceIndex
          batches csv0 logFile0 peer completedTimestamp version).binFileWritten
        = some []) := by
  rcases hd : (drainAlerts batches 10).1 with _ | a
  · exfalso
    simp only [download_piece] at hpre
    rw [hd] at hpre
    simp at hpre
  · rcases a with _ | bs
    · constructor
      · intro hp
        simp only [download_piece]; rw [hd]; simp [hp]
      · intro hp
        simp only [download_piece]; rw [hd]; simp [hp, write_piece_to_file]
    · by_cases hb : bs.length = 0
      · have hbs : bs = [] := List.length_eq_zero.mp hb
        subst hbs
        constructor
        · intro hp
          simp only [download_piece]; rw [hd]; simp [hp]
        · intro hp
          simp only [download_piece]; rw [hd]; simp [hp, write_piece_to_file]
      · exfalso
        simp only [download_piece] at hpre
        rw [hd] at hpre
        by_cases hh : sha1 bs = info.hashForPiece pieceIndex
        · rcases hm : matcher bs pieceIndex with _ | _ | _ <;>
            simp [hb, hh, hm] at hpre
        · simp [hb, hh] at hpre

/-- Witness for C5 at a concrete input: `BLANK` record with the setting
off — no `.bin` file is written. -/
theorem C5_blank_bin_file_witness :
    (download_piece (fun _ => []) (fun _ _ => .isNum) "w" false
        ⟨1, fun _ => [], "ih", "nm"⟩ 0 [[Alert.readPiece 0 (some [])]]
        [] none ("p", 1) "ts" "v").binFileWritten = none :=
  (C5_blank_bin_file (fun _ => []) (fun _ _ => .isNum) "w" false
      ⟨1, fun _ => [], "ih", "nm"⟩ 0 [[Alert.readPiece 0 (some [])]]
      [] none ("p", 1) "ts" "v" rfl).1 rfl

/-- Counterexample to C5 as stated: a probe that captures a zero-length
buffer produces a `BLANK` record, and with the piece_download setting on
a (zero-length) `.bin` file IS persisted under the peer directory. -/
theorem C5_blank_bin_file_counterexample :
    (download_piece (fun _ => []) (fun _ _ => .isNum) "w" true
        ⟨1, fun _ => [], "ih", "nm"⟩ 0 [[Alert.readPiece 0 (some [])]]
        [] none ("p", 1) "ts" "v").errorPrefix = "BLANK_"
    ∧ (download_piece (fun _ => []) (fun _ _ => .isNum) "w" true
        ⟨1, fun _ => [], "ih", "nm"⟩ 0 [[Alert.readPiece 0 (some [])]]
        [] none ("p", 1) "ts" "v").binFileWritten = some []
    ∧ (download_piece (fun _ => []) (fun _ _ => .isNum) "w" true
        ⟨1, fun _ => [], "ih", "nm"⟩ 0 [[Alert.readPiece 0 (some [])]]
        [] none ("p", 1) "ts" "v").binFileWritten ≠ none :=
  ⟨rfl, rfl, by decide⟩

/-- A CIDR network (family, network address, prefix length), the parse
result of `ipaddress.ip_network(..., strict=False)`.  Membership follows
Python's `ipaddress`: an address of the other family is never a member,
otherwise the top `prefixLen` bits must agree. -/
structure IpNet where
  fam : Bool
  netAddr : Nat
  prefixLen : Nat
deriving DecidableEq, Repr

/-- Python's `ip_address(x) in ip_network(y)`. -/
def IpNet.containsAddr (net : IpNet) (a : IpAddr) : Bool :=
  net.fam == a.fam
    && a.val / 2 ^ ((if net.fam then 128 else 32) - net.prefixLen)
       == net.netAddr / 2 ^ ((if net.fam then 128 else 32) - net.prefixLen)

/-- Models `_ip_in_range` (client.py lines 519–540): an unparseable
address (`none`, a `ValueError`) prints a message and yields `false`;
otherwise true iff the address lies in one of the ranges. -/
def ip_in_range (ip : Option IpAddr) (ipRanges : List IpNet) : Bool :=
  match ip with
  | none => false
  | some a => ipRanges.any (fun r => r.containsAddr a)

/-- The network `ip_network(":".join(ipv6.split(":")[:4]) + "::/64")`
derived from the host's public IPv6 address (client.py line 128): the
/64 given by its top 64 bits (the textual derivation, assumed to start
from the full 8-group literal, is modelled numerically). -/
def excludedIpv6Network (selfV6 : Nat) : IpNet :=
  ⟨true, selfV6 / 2 ^ 64 * 2 ^ 64, 64⟩

/-- Condition `not ipv6 or not ip_address(peer_ip) in
excluded_ipv6_network` of `fetch_peer_list` (client.py lines 147–149). -/
def peerExcludedOk (ipv6 : Option Nat) (a : IpAddr) : Bool :=
  match ipv6 with
  | none => true
  | some s6 => !(excludedIpv6Network s6).containsAddr a

/-- Fields of libtorrent's `peer_info` used by `fetch_peer_list`: the
`(address, port)` pair `p.ip` and the seed flag. -/
structure PeerInfo where
  addr : IpAddr
  port : Nat
  seed : Bool
deriving DecidableEq, Repr

/-- Loop body of `fetch_peer_list` (client.py lines 139–155): append
`p.ip` iff `p` is a seed, not already collected, not the host's own v4
address, not in the host's v6 /64, and inside the v4 or v6 allow-list. -/
def acceptPeer (ipv4 : Option IpAddr) (ipv6 : Option Nat)
    (ipv4Ranges ipv6Ranges : List IpNet) (peers : List (IpAddr × Nat))
    (p : PeerInfo) : List (IpAddr × Nat) :=
  if p.seed && decide ((p.addr, p.port) ∉ peers) && decide (some p.addr ≠ ipv4)
      && peerExcludedOk ipv6 p.addr then
    if ip_in_range (some p.addr) ipv4Ranges || ip_in_range (some p.addr) ipv6Ranges then
      peers ++ [(p.addr, p.port)]
    else peers
  else peers

/-- Models `Client.fetch_peer_list` (client.py lines 97–160): fold the
acceptance test over `RETRY_COUNTER` polls of `handle.get_peer_info()`
(the environment's `polls` stream, one batch per iteration) and return
at most `max_list_size` peers. -/
def fetch_peer_list (ipv4 : Option IpAddr) (ipv6 : Option Nat)
    (ipv4Ranges ipv6Ranges : List IpNet) (polls : List (List PeerInfo))
    (maxListSize : Nat) : List (IpAddr × Nat) :=
  (polls.foldl
      (fun peers batch => batch.foldl (acceptPeer ipv4 ipv6 ipv4Ranges ipv6Ranges) peers)
      []).take maxListSize

lemma acceptPeer_cases (ipv4 : Option IpAddr) (ipv6 : Option Nat)
    (r4 r6 : List IpNet) (peers : List (IpAddr × Nat)) (p : PeerInfo) :
    acceptPeer ipv4 ipv6 r4 r6 peers p = peers
    ∨ (acceptPeer ipv4 ipv6 r4 r6 peers p = peers ++ [(p.addr, p.port)]
       ∧ (p.addr, p.port) ∉ peers ∧ p.seed = true
       ∧ some p.addr ≠ ipv4 ∧ peerExcludedOk ipv6 p.addr = true
       ∧ (ip_in_range (some p.addr) r4 || ip_in_range (some p.addr) r6) = true) := by
  unfold acceptPeer
  by_cases h1 : (p.seed && decide ((p.addr, p.port) ∉ peers)
      && decide (some p.addr ≠ ipv4) && peerExcludedOk ipv6 p.addr) = true
  · rw [if_pos h1]
    by_cases h2 : (ip_in_range (some p.addr) r4 || ip_in_range (some p.addr) r6) = true
    · right
      simp only [Bool.and_eq_true, decide_eq_true_eq] at h1
      exact ⟨if_pos h2, h1.1.1.2, h1.1.1.1, h1.1.2, h1.2, h2⟩
    · left; rw [if_neg h2]
  · left; rw [if_neg h1]

lemma foldl_acceptPeer_mem (ipv4 : Option IpAddr) (ipv6 : Option Nat)
    (r4 r6 : List IpNet) :
    ∀ (l : List PeerInfo) (peers : List (IpAddr × Nat)) (q : IpAddr × Nat),
      q ∈ l.foldl (acceptPeer ipv4 ipv6 r4 r6) peers →
      q ∈ peers ∨ ∃ p ∈ l, p.addr = q.1 ∧ p.port = q.2 ∧ p.seed = true
        ∧ some p.addr ≠ ipv4 ∧ peerExcludedOk ipv6 p.addr = true
        ∧ (ip_in_range (some p.addr) r4 || ip_in_range (some p.addr) r6) = true := by
  intro l
  induction l with
  | nil => intro peers q h; exact Or.inl h
  | cons p l ih =>
    intro peers q h
    rw [List.foldl_cons] at h
    rcases ih _ q h with hq | ⟨p2, hp2, rest⟩
    · rcases acceptPeer_cases ipv4 ipv6 r4 r6 peers p with he | ⟨he, _, hs, h4, h6, hr⟩
      · rw [he] at hq; exact Or.inl hq
      · rw [he] at hq
        rcases List.mem_append.mp hq with hq2 | hq2
        · exact Or.inl hq2
        · obtain rfl : q = (p.addr, p.port) := by simpa using hq2
          exact Or.inr ⟨p, List.mem_cons_self _ _, rfl, rfl, hs, h4, h6, hr⟩
    · exact Or.inr ⟨p2, List.mem_cons_of_mem _ hp2, rest⟩

lemma foldl_acceptPeer_nodup (ipv4 : Option IpAddr) (ipv6 : Option Nat)
    (r4 r6 : List IpNet) :
    ∀ (l : List PeerInfo) (peers : List (IpAddr × Nat)), peers.Nodup →
      (l.foldl (acceptPeer ipv4 ipv6 r4 r6) peers).Nodup := by
  intro l
  induction l with
  | nil => intro peers h; exact h
  | cons p l ih =>
    intro peers h
    rw [List.foldl_cons]
    apply ih
    rcases acceptPeer_cases ipv4 ipv6 r4 r6 peers p with he | ⟨he, hnotin, _⟩
    · rw [he]; exact h
    · rw [he]
      simp only [List.nodup_append, List.nodup_cons, List.nodup_nil]
      exact ⟨h, ⟨by simp, trivial⟩, by simpa [List.disjoint_singleton] using hnotin⟩

lemma foldl_acceptPeer_sublist (ipv4 : Option IpAddr) (ipv6 : Option Nat)
    (r4 r6 : List IpNet) :
    ∀ (l : List PeerInfo) (peers : List (IpAddr × Nat)),
      ∃ s, l.foldl (acceptPeer ipv4 ipv6 r4 r6) peers = peers ++ s
        ∧ s.Sublist (l.map fun p => (p.addr, p.port)) := by
  intro l
  induction l with
  | nil => intro peers; exact ⟨[], by simp, by simp⟩
  | cons p l ih =>
    intro peers
    rw [List.foldl_cons]
    rcases acceptPeer_cases ipv4 ipv6 r4 r6 peers p with he | ⟨he, _⟩
    · rw [he]
      obtain ⟨s, hs1, hs2⟩ := ih peers
      exact ⟨s, hs1, hs2.trans (List.sublist_cons_self _ _)⟩
    · rw [he]
      obtain ⟨s, hs1, hs2⟩ := ih (peers ++ [(p.addr, p.port)])
      refine ⟨(p.addr, p.port) :: s, ?_, ?_⟩
      · rw [hs1]; simp
      · simpa using List.Sublist.cons₂ (p.addr, p.port) hs2

lemma polls_fold_mem (ipv4 : Option IpAddr) (ipv6 : Option Nat)
    (r4 r6 : List IpNet) :
    ∀ (polls : List (List PeerInfo)) (peers : List (IpAddr × Nat)) (q : IpAddr × Nat),
      q ∈ polls.foldl
          (fun peers batch => batch.foldl (acceptPeer ipv4 ipv6 r4 r6) peers) peers →
      q ∈ peers ∨ ∃ p ∈ polls.flatten, p.addr = q.1 ∧ p.port = q.2 ∧ p.seed = true
        ∧ some p.addr ≠ ipv4 ∧ peerExcludedOk ipv6 p.addr = true
        ∧ (ip_in_range (some p.addr) r4 || ip_in_range (some p.addr) r6) = true := by
  intro polls
  induction polls with
  | nil => intro peers q h; exact Or.inl h
  | cons b bs ih =>
    intro peers q h
    rw [List.foldl_cons] at h
    rcases ih _ q h with hq | ⟨p2, hp2, rest⟩
    · rcases foldl_acceptPeer_mem ipv4 ipv6 r4 r6 b peers q hq with hq2 | ⟨p2, hp2, rest⟩
      · exact Or.inl hq2
      · exact Or.inr ⟨p2, by simp [List.flatten_cons, hp2], rest⟩
    · exact Or.inr ⟨p2, by simp only [List.flatten_cons, List.mem_append]; exact Or.inr hp2, rest⟩

lemma polls_fold_nodup (ipv4 : Option IpAddr) (ipv6 : Option Nat)
    (r4 r6 : List IpNet) :
    ∀ (polls : List (List PeerInfo)) (peers : List (IpAddr × Nat)), peers.Nodup →
      (polls.foldl
        (fun peers batch => batch.foldl (acceptPeer ipv4 ipv6 r4 r6) peers) peers).Nodup := by
  intro polls
  induction polls with
  | nil => intro peers h; exact h
  | cons b bs ih =>
    intro peers h
    rw [List.foldl_cons]
    exact ih _ (foldl_acceptPeer_nodup ipv4 ipv6 r4 r6 b peers h)

lemma polls_fold_sublist (ipv4 : Option IpAddr) (ipv6 : Option Nat)
    (r4 r6 : List IpNet) :
    ∀ (polls : List (List PeerInfo)) (peers : List (IpAddr × Nat)),
      ∃ s, polls.foldl
          (fun peers batch => batch.foldl (acceptPeer ipv4 ipv6 r4 r6) peers) peers
          = peers ++ s
        ∧ s.Sublist (polls.flatten.map fun p => (p.addr, p.port)) := by
  intro polls
  induction polls with
  | nil => intro peers; exact ⟨[], by simp, by simp⟩
  | cons b bs ih =>
    intro peers
    rw [List.foldl_cons]
    obtain ⟨s1, hs1, hsub1⟩ := foldl_acceptPeer_sublist ipv4 ipv6 r4 r6 b peers
    obtain ⟨s2, hs2, hsub2⟩ := ih (b.foldl (acceptPeer ipv4 ipv6 r4 r6) peers)
    refine ⟨s1 ++ s2, ?_, ?_⟩
    · rw [hs2, hs1, List.append_assoc]
    · rw [List.flatten_cons, List.map_append]
      exact List.Sublist.append hsub1 hsub2

/-- C6: every peer returned by `fetch_peer_list` was reported as a seed,
differs from the host's public IPv4 address, lies outside the /64 of
the host's public IPv6 address when that is known, and lies inside the
v4 or v6 allow-list; the returned list has no duplicate
`(address, port)` pairs, has length at most `max_list_size`, and lists
peers in discovery order (it is a sublist of the polled peer stream). -/
theorem C6_fetch_peer_list_invariants (ipv4 : Option IpAddr)
    (ipv6 : Option Nat) (r4 r6 : List IpNet) (polls : List (List PeerInfo))
    (maxListSize : Nat) :
    (∀ q ∈ fetch_peer_list ipv4 ipv6 r4 r6 polls maxListSize,
      (∃ p ∈ polls.flatten, p.addr = q.1 ∧ p.port = q.2 ∧ p.seed = true)
      ∧ some q.1 ≠ ipv4
      ∧ (∀ s6, ipv6 = some s6 → (excludedIpv6Network s6).containsAddr q.1 = false)
      ∧ (ip_in_range (some q.1) r4 || ip_in_range (some q.1) r6) = true)
    ∧ (fetch_peer_list ipv4 ipv6 r4 r6 polls maxListSize).Nodup
    ∧ (fetch_peer_list ipv4 ipv6 r4 r6 polls maxListSize).length ≤ maxListSize
    ∧ (fetch_peer_list ipv4 ipv6 r4 r6 polls maxListSize).Sublist
        (polls.flatten.map fun p => (p.addr, p.port)) := by
  refine ⟨?_, ?_, ?_, ?_⟩
  · intro q hq
    have hq2 : q ∈ polls.foldl
        (fun peers batch => batch.foldl (acceptPeer ipv4 ipv6 r4 r6) peers) [] :=
      List.take_subset _ _ hq
    rcases polls_fold_mem ipv4 ipv6 r4 r6 polls [] q hq2 with h | ⟨p, hp, ha, hpt, hs, h4, h6, hr⟩
    · simp at h
    · refine ⟨⟨p, hp, ha, hpt, hs⟩, ?_, ?_, ?_⟩
      · rw [← ha]; exact h4
      · intro s6 hs6
        subst hs6
        rw [← ha]
        simpa [peerExcludedOk] using h6
      · rw [← ha]; exact hr
  · exact (List.take_sublist _ _).nodup
      (polls_fold_nodup ipv4 ipv6 r4 r6 polls [] List.nodup_nil)
  · exact List.length_take_le _ _
  · obtain ⟨s, hs, hsub⟩ := polls_fold_sublist ipv4 ipv6 r4 r6 polls []
    have : fetch_peer_list ipv4 ipv6 r4 r6 polls maxListSize |>.Sublist s := by
      unfold fetch_peer_list
      rw [hs]
      simpa using List.take_sublist _ _
    exact this.trans hsub

/-- Witness for C6 at a concrete input: one seed peer at v4 address 7
port 5 inside the /24 allow-list around 0, with the host at v4 address
100, is accepted by the filter conditions. -/
theorem C6_fetch_peer_list_invariants_witness :
    some (IpAddr.v4 7) ≠ some (IpAddr.v4 100)
    ∧ (ip_in_range (some (IpAddr.v4 7)) [⟨false, 0, 24⟩]
        || ip_in_range (some (IpAddr.v4 7)) []) = true :=
  ((C6_fetch_peer_list_invariants (some (IpAddr.v4 100)) none
      [⟨false, 0, 24⟩] [] [[⟨IpAddr.v4 7, 5, true⟩]] 20).1
    (IpAddr.v4 7, 5) (by decide)).2.imp id (fun h => h.2)

/-- The list comprehension of `load_ip_ranges` (client.py lines
511–514): parse the lines left to right; a line whose parse failed
(`none`, a `ValueError` from `ipaddress.ip_network`) makes the whole
comprehension raise, modelled as `Except.error`. -/
def parseAllLines : List (Option IpNet) → Except Unit (List IpNet)
  | [] => .ok []
  | none :: _ => .error ()
  | some n :: rest => (parseAllLines rest).map (n :: ·)

/-- Models `load_ip_ranges` (client.py lines 497–516) on the parse
results of the allow-list file's lines: `none` = the file is absent
(return `[]`), otherwise each element is the outcome of
`ipaddress.ip_network(line.strip(), strict=False)` for one line.  There
is no try/except around the comprehension, so a `ValueError` propagates
out of the function. -/
def load_ip_ranges : Option (List (Option IpNet)) → Except Unit (List IpNet)
  | none => .ok []
  | some lines => parseAllLines lines

/-- Modelled from the spec's words, for comparison with the code:
"one CIDR per line; invalid lines skipped silently" — keep exactly the
networks parsed from the valid lines. -/
def load_ip_ranges_spec : Option (List (Option IpNet)) → List IpNet
  | none => []
  | some lines => lines.filterMap id

lemma parseAllLines_all_some :
    ∀ lines : List (Option IpNet), (∀ l ∈ lines, l.isSome) →
      parseAllLines lines = .ok (lines.filterMap id) := by
  intro lines
  induction lines with
  | nil => intro _; rfl
  | cons l rest ih =>
    intro h
    cases l with
    | none => simpa using h none (List.mem_cons_self _ _)
    | some n =>
      have hrest := ih fun x hx => h x (List.mem_cons_of_mem _ hx)
      simp only [parseAllLines, hrest, List.filterMap_cons, id]
      rfl

lemma parseAllLines_has_none :
    ∀ lines : List (Option IpNet), (∃ l ∈ lines, l = none) →
      parseAllLines lines = .error () := by
  intro lines
  induction lines with
  | nil => rintro ⟨l, hl, _⟩; simp at hl
  | cons l rest ih =>
    rintro ⟨x, hx, rfl⟩
    rcases List.mem_cons.mp hx with rfl | hx2
    · rfl
    · cases l with
      | none => rfl
      | some n =>
        simp only [parseAllLines, ih ⟨none, hx2, rfl⟩]
        rfl

/-- C7 (amended): when the allow-list file is absent, `load_ip_ranges`
returns the empty list; when it is present and every line is a valid
CIDR, it returns exactly the parsed networks; but an invalid CIDR line
is NOT skipped — the `ValueError` propagates out of `load_ip_ranges`. -/
theorem C7_load_ip_ranges_behaviour :
    load_ip_ranges none = .ok []
    ∧ (∀ lines, (∀ l ∈ lines, l.isSome) →
        load_ip_ranges (some lines) = .ok (lines.filterMap id))
    ∧ (∀ lines, (∃ l ∈ lines, l = none) →
        load_ip_ranges (some lines) = .error ()) :=
  ⟨rfl, fun lines h => parseAllLines_all_some lines h,
    fun lines h => parseAllLines_has_none lines h⟩

/-- Witness for C7 at concrete inputs: a file of one valid line parses,
a file of one invalid line raises. -/
theorem C7_load_ip_ranges_behaviour_witness :
    load_ip_ranges (some [some ⟨false, 0, 24⟩]) = .ok [⟨false, 0, 24⟩]
    ∧ load_ip_ranges (some [none]) = .error () :=
  ⟨C7_load_ip_ranges_behaviour.2.1 [some ⟨false, 0, 24⟩] (by simp),
   C7_load_ip_ranges_behaviour.2.2 [none] ⟨none, by simp, rfl⟩⟩

/-- Counterexample to C7 as stated: a present file with one valid and
one invalid CIDR line makes `load_ip_ranges` raise (`ValueError`
propagates) instead of returning the networks parsed from the valid
lines, as the spec-modelled skipping version would. -/
theorem C7_load_ip_ranges_counterexample :
    load_ip_ranges (some [some ⟨false, 0, 24⟩, none]) = .error ()
    ∧ load_ip_ranges_spec (some [some ⟨false, 0, 24⟩, none]) = [⟨false, 0, 24⟩] :=
  ⟨rfl, rfl⟩

/-- Arguments of one `_write_peer_log` call that vary between probes. -/
structure LogCall where
  pieceIndex : Nat
  completedTimestamp : String
  logErrorMessage : String
  version : String
  whois : String

/-- One `_write_peer_log` call acting on the log-file state. -/
def applyLogCall (info : TorrentInfo) (peer : Peer)
    (file : Option (List String)) (c : LogCall) : Option (List String) :=
  some (write_peer_log info peer c.pieceIndex file c.completedTimestamp
    c.logErrorMessage c.version c.whois)

lemma foldl_applyLogCall (info : TorrentInfo) (peer : Peer) :
    ∀ (cs : List LogCall) (ls : List String),
      cs.foldl (applyLogCall info peer) (some ls)
        = some (ls ++ cs.map fun d =>
            recordLine d.pieceIndex d.logErrorMessage d.completedTimestamp d.version) := by
  intro cs
  induction cs with
  | nil => intro ls; simp
  | cons d cs ih =>
    intro ls
    rw [List.foldl_cons]
    have hstep : applyLogCall info peer (some ls) d
        = some (ls ++ [recordLine d.pieceIndex d.logErrorMessage
            d.completedTimestamp d.version]) := rfl
    rw [hstep, ih]
    simp

/-- C8: starting from an absent log file, the first `_write_peer_log`
call creates it with the provenance header block (IP, port, WHOIS
organisation, payload name, info-hash, evidence-start time, crawler
version, separator `---`) followed by its one record line, and every
subsequent call appends exactly its one record line — the header block
appears exactly once, produced by the creating call. -/
theorem C8_log_header_once (info : TorrentInfo) (peer : Peer)
    (c : LogCall) (cs : List LogCall) :
    write_peer_log info peer c.pieceIndex none c.completedTimestamp
        c.logErrorMessage c.version c.whois
      = headerLines info peer c.whois c.completedTimestamp c.version
        ++ [recordLine c.pieceIndex c.logErrorMessage c.completedTimestamp c.version]
    ∧ (∀ ls (d : LogCall),
        write_peer_log info peer d.pieceIndex (some ls) d.completedTimestamp
            d.logErrorMessage d.version d.whois
          = ls ++ [recordLine d.pieceIndex d.logErrorMessage
              d.completedTimestamp d.version])
    ∧ cs.foldl (applyLogCall info peer) (applyLogCall info peer none c)
        = some (headerLines info peer c.whois c.completedTimestamp c.version
            ++ (c :: cs).map fun d =>
              recordLine d.pieceIndex d.logErrorMessage d.completedTimestamp d.version) := by
  refine ⟨rfl, fun ls d => rfl, ?_⟩
  have h1 : applyLogCall info peer none c
      = some (headerLines info peer c.whois c.completedTimestamp c.version
          ++ [recordLine c.pieceIndex c.logErrorMessage c.completedTimestamp c.version]) := rfl
  rw [h1, foldl_applyLogCall]
  simp

lemma save_peer_mem (p : Peer) (cs : List Peer) : p ∈ save_peer p cs := by
  unfold save_peer
  by_cases h : p ∈ cs
  · rw [if_pos h]; exact h
  · rw [if_neg h]; simp

lemma save_peer_of_mem {p : Peer} {cs : List Peer} (h : p ∈ cs) :
    save_peer p cs = cs := if_pos h

lemma iterate_save_peer_aux (p : Peer) :
    ∀ (n : Nat) (cs : List Peer),
      (fun l => save_peer p l)^[n] (save_peer p cs) = save_peer p cs := by
  intro n
  induction n with
  | zero => intro cs; rfl
  | succ n ih =>
    intro cs
    rw [Function.iterate_succ_apply]
    have : save_peer p (save_peer p cs) = save_peer p cs :=
      save_peer_of_mem (save_peer_mem p cs)
    rw [this, ih]

lemma iterate_save_peer (p : Peer) (cs : List Peer) (k : Nat) (hk : 1 ≤ k) :
    (fun l => save_peer p l)^[k] cs = save_peer p cs := by
  obtain ⟨n, rfl⟩ : ∃ n, k = n + 1 := ⟨k - 1, by omega⟩
  rw [Function.iterate_succ_apply, iterate_save_peer_aux]

lemma save_peer_count (p : Peer) (cs : List Peer) :
    (save_peer p cs).count p = max (cs.count p) 1 := by
  unfold save_peer
  by_cases h : p ∈ cs
  · rw [if_pos h]
    have : 1 ≤ cs.count p := List.count_pos_iff.mpr h
    omega
  · rw [if_neg h]
    have h0 : cs.count p = 0 := List.count_eq_zero_of_not_mem h
    simp [List.count_append, h0]

lemma save_peer_count_other (p q : Peer) (cs : List Peer) (hq : q ≠ p) :
    (save_peer p cs).count q = cs.count q := by
  unfold save_peer
  by_cases h : p ∈ cs
  · rw [if_pos h]
  · rw [if_neg h]
    simp [List.count_append, List.count_singleton, hq]

lemma save_peer_nodup (p : Peer) (cs : List Peer) (h : cs.Nodup) :
    (save_peer p cs).Nodup := by
  unfold save_peer
  by_cases hm : p ∈ cs
  · rw [if_pos hm]; exact h
  · rw [if_neg hm]
    simp only [List.nodup_append, List.nodup_cons, List.nodup_nil]
    exact ⟨h, ⟨by simp, trivial⟩, by simpa [List.disjoint_singleton] using hm⟩

/-- C9 (amended): repeating `_save_peer` for the same `(address, port)`
pair never accumulates rows — after `k ≥ 1` calls the number of rows for
that pair is `max (prior count) 1`, rows for other pairs are untouched,
and a duplicate-free `peer.csv` stays duplicate-free; in particular,
when the prior content holds at most one row for the pair (as any
content produced by `_save_peer` itself does), exactly one row for it
remains.  For arbitrary prior content the claim's "exactly one row" does
not hold: pre-existing duplicate rows are kept. -/
theorem C9_save_peer_idempotent (p : Peer) (cs : List Peer) (k : Nat)
    (hk : 1 ≤ k) :
    ((fun l => save_peer p l)^[k] cs).count p = max (cs.count p) 1
    ∧ (∀ q, q ≠ p → ((fun l => save_peer p l)^[k] cs).count q = cs.count q)
    ∧ (cs.Nodup → ((fun l => save_peer p l)^[k] cs).Nodup)
    ∧ (cs.count p ≤ 1 → ((fun l => save_peer p l)^[k] cs).count p = 1) := by
  rw [iterate_save_peer p cs k hk]
  refine ⟨save_peer_count p cs, fun q hq => save_peer_count_other p q cs hq,
    save_peer_nodup p cs, ?_⟩
  intro h1
  rw [save_peer_count]
  omega

/-- Witness for C9 at a concrete input: two calls on an initially empty
`peer.csv` leave exactly one row for the peer. -/
theorem C9_save_peer_idempotent_witness :
    ((fun l => save_peer ("192.0.2.10", 51413) l)^[2] []).count ("192.0.2.10", 51413) = 1 :=
  (C9_save_peer_idempotent ("192.0.2.10", 51413) [] 2 (by omega)).2.2.2 (by simp)

/-- Counterexample to C9 as stated: with a prior `peer.csv` content that
already holds two rows for the pair, a further `_save_peer` call leaves
both rows — not "exactly one row for that pair". -/
theorem C9_save_peer_counterexample :
    save_peer ("1.2.3.4", 80) [("1.2.3.4", 80), ("1.2.3.4", 80)]
      = [("1.2.3.4", 80), ("1.2.3.4", 80)]
    ∧ ([("1.2.3.4", 80), ("1.2.3.4", 80)] : List Peer).count ("1.2.3.4", 80) = 2 := by
  constructor
  · rfl
  · rfl

lemma toDigitsCore_shift (fuel : Nat) :
    ∀ (n : Nat) (ds : List Char), n < fuel →
      Nat.toDigitsCore 10 fuel n ds = Nat.toDigitsCore 10 (n + 1) n [] ++ ds := by
  induction fuel using Nat.strong_induction_on with
  | _ fuel ih =>
    intro n ds hn
    cases fuel with
    | zero => omega
    | succ f =>
      by_cases h0 : n / 10 = 0
      · simp [Nat.toDigitsCore, h0]
      · have hpos : 0 < n := by omega
        have hdiv : n / 10 < n := Nat.div_lt_self hpos (by omega)
        have hlt1 : n / 10 < f := by omega
        rw [show Nat.toDigitsCore 10 (f + 1) n ds
            = Nat.toDigitsCore 10 f (n / 10) (Nat.digitChar (n % 10) :: ds) by
          simp [Nat.toDigitsCore, h0]]
        rw [show Nat.toDigitsCore 10 (n + 1) n []
            = Nat.toDigitsCore 10 n (n / 10) [Nat.digitChar (n % 10)] by
          simp [Nat.toDigitsCore, h0]]
        rw [ih f (by omega) (n / 10) _ hlt1]
        rw [ih n (by omega) (n / 10) _ hdiv]
        simp

/-- Numeric value of a decimal digit character. -/
def digitVal (c : Char) : Nat := c.toNat - 48

lemma digitVal_digitChar : ∀ k, k < 10 → digitVal (Nat.digitChar k) = k := by decide

/-- Decimal value of a digit string, most significant first. -/
def charsVal (l : List Char) : Nat := l.foldl (fun a c => 10 * a + digitVal c) 0

lemma charsVal_append_singleton (l : List Char) (c : Char) :
    charsVal (l ++ [c]) = 10 * charsVal l + digitVal c := by
  unfold charsVal
  rw [List.foldl_append]
  rfl

lemma charsVal_toDigits (n : Nat) : charsVal (Nat.toDigits 10 n) = n := by
  induction n using Nat.strong_induction_on with
  | _ n ih =>
    by_cases h0 : n / 10 = 0
    · have hn : n < 10 := by omega
      have hrepr : Nat.toDigits 10 n = [Nat.digitChar (n % 10)] := by
        simp [Nat.toDigits, Nat.toDigitsCore, h0]
      rw [hrepr]
      unfold charsVal
      simp only [List.foldl_cons, List.foldl_nil]
      rw [digitVal_digitChar (n % 10) (by omega)]
      omega
    · have hpos : 0 < n := by omega
      have hdiv : n / 10 < n := Nat.div_lt_self hpos (by omega)
      have hstep : Nat.toDigits 10 n
          = Nat.toDigits 10 (n / 10) ++ [Nat.digitChar (n % 10)] := by
        unfold Nat.toDigits
        rw [show Nat.toDigitsCore 10 (n + 1) n []
            = Nat.toDigitsCore 10 n (n / 10) [Nat.digitChar (n % 10)] by
          simp [Nat.toDigitsCore, h0]]
        exact toDigitsCore_shift n (n / 10) _ hdiv
      rw [hstep, charsVal_append_singleton, ih (n / 10) hdiv,
        digitVal_digitChar (n % 10) (by omega)]
      omega

lemma toDigits_inj {m n : Nat} (h : Nat.toDigits 10 m = Nat.toDigits 10 n) :
    m = n := by
  have hm := charsVal_toDigits m
  rw [h, charsVal_toDigits] at hm
  omega

lemma repr_data_inj {m n : Nat}
    (h : (Nat.repr m).data = (Nat.repr n).data) : m = n :=
  toDigits_inj h

/-- Filename `f"{base}_{counter}{ext}"` tried by `_get_unique_filename`
(client.py lines 608–612); `base`/`ext` are the two components of
`os.path.splitext(path)`. -/
def candidateName (base ext : String) (c : Nat) : String :=
  base ++ "_" ++ Nat.repr c ++ ext

lemma candidateName_inj (base ext : String) {m n : Nat}
    (h : candidateName base ext m = candidateName base ext n) : m = n := by
  unfold candidateName at h
  have hd := congrArg String.data h
  simp only [String.data_append] at hd
  exact repr_data_inj (List.append_cancel_left (List.append_cancel_right hd))

lemma exists_unused (fs : List String) (base ext : String) :
    ∃ c : Nat, candidateName base ext (c + 1) ∉ fs := by
  by_contra hall
  push_neg at hall
  have hinj : Function.Injective
      fun i : Fin (fs.length + 1) => candidateName base ext (i.1 + 1) := by
    intro i j hij
    have h2 := candidateName_inj base ext hij
    exact Fin.ext (by omega)
  have hmem : ∀ i ∈ (Finset.univ : Finset (Fin (fs.length + 1))),
      candidateName base ext (i.1 + 1) ∈ fs.toFinset :=
    fun i _ => List.mem_toFinset.mpr (hall i.1)
  have hcard := Finset.card_le_card_of_injOn
      (fun i : Fin (fs.length + 1) => candidateName base ext (i.1 + 1))
      hmem (fun i _ j _ hij => hinj hij)
  rw [Finset.card_univ, Fintype.card_fin] at hcard
  have hle : fs.toFinset.card ≤ fs.length := fs.toFinset_card_le
  omega

/-- Models `_get_unique_filename` (client.py lines 603–612).  The file
system is the list `fs` of existing paths; the path argument is given as
its `os.path.splitext` components `base`/`ext`.  The `while` loop
returns the first counter `c ≥ 1` whose candidate name is unused; it
terminates because the file system is finite and candidate names for
distinct counters are distinct (`exists_unused`). -/
def get_unique_filename (fs : List String) (base ext : String) : String :=
  if base ++ ext ∈ fs then
    candidateName base ext (Nat.find (exists_unused fs base ext) + 1)
  else base ++ ext

/-- C10: `_get_unique_filename` returns the path unchanged when no file
exists there; otherwise it returns the path with `_N` inserted before
the extension, where `N` is the least integer starting at 1 making the
name unused; the returned path never names an existing file. -/
theorem C10_get_unique_filename_spec (fs : List String) (base ext : String) :
    (base ++ ext ∉ fs → get_unique_filename fs base ext = base ++ ext)
    ∧ (base ++ ext ∈ fs → ∃ n, 1 ≤ n
        ∧ get_unique_filename fs base ext = candidateName base ext n
        ∧ candidateName base ext n ∉ fs
        ∧ ∀ m, 1 ≤ m → m < n → candidateName base ext m ∈ fs)
    ∧ get_unique_filename fs base ext ∉ fs := by
  refine ⟨?_, ?_, ?_⟩
  · intro h
    unfold get_unique_filename
    rw [if_neg h]
  · intro h
    unfold get_unique_filename
    rw [if_pos h]
    refine ⟨Nat.find (exists_unused fs base ext) + 1, by omega, rfl,
      Nat.find_spec (exists_unused fs base ext), ?_⟩
    intro m h1 h2
    have hm : m - 1 < Nat.find (exists_unused fs base ext) := by omega
    have hmin := Nat.find_min (exists_unused fs base ext) hm
    have hmm : m - 1 + 1 = m := by omega
    rw [hmm] at hmin
    simpa using hmin
  · unfold get_unique_filename
    by_cases h : base ++ ext ∈ fs
    · rw [if_pos h]
      exact Nat.find_spec (exists_unused fs base ext)
    · rw [if_neg h]
      exact h

/-- Witness for C10 at concrete inputs: an unused path is returned
unchanged, and for an existing path the returned name is not in use. -/
theorem C10_get_unique_filename_spec_witness :
    get_unique_filename [] "a" ".bin" = "a" ++ ".bin"
    ∧ (∃ n, 1 ≤ n
        ∧ get_unique_filename ["a" ++ ".bin"] "a" ".bin" = candidateName "a" ".bin" n
        ∧ candidateName "a" ".bin" n ∉ ["a" ++ ".bin"]
        ∧ ∀ m, 1 ≤ m → m < n → candidateName "a" ".bin" m ∈ ["a" ++ ".bin"]) :=
  ⟨(C10_get_unique_filename_spec [] "a" ".bin").1 (by simp),
   (C10_get_unique_filename_spec ["a" ++ ".bin"] "a" ".bin").2.1 (by simp)⟩

end P2Pslyr
